import Mathlib

/-!
Verification of the todo CRUD service in `src/main.py`.

The service keeps all state in a SQLite table `todos` accessed through
SQLAlchemy.  We embed the durable store as a list of rows in insertion
order together with the id dispenser, and each route handler as a pure
function over that state.  Fallible handlers return `Except HTTPError`,
mirroring `raise HTTPException(...)`.
-/

/-- A row of the `todos` table, from the SQLAlchemy model `TodoDB`
(src/main.py lines 23-29).  `completed` is `Option Bool` because the column
is declared `Column(Boolean, default=False)` without `nullable=False`, so the
schema allows NULL for it; `content` is declared `nullable=False` and is a
plain `String`. -/
structure TodoDB where
  todo_id : Nat
  content : String
  completed : Option Bool
deriving DecidableEq

/-- The durable Store backing the service: the `todos` table in insertion
order, plus the id dispenser of the store. -/
structure Store where
  rows : List TodoDB
  nextId : Nat
deriving DecidableEq

/-- Request schema for create, from `TodoCreate` (src/main.py lines 37-39):
a single required field `content`. -/
structure TodoCreate where
  content : String
deriving DecidableEq

/-- Request schema for update, from `TodoUpdate` (src/main.py lines 42-45):
both fields optional, `None` meaning "leave unchanged". -/
structure TodoUpdate where
  content : Option String
  completed : Option Bool
deriving DecidableEq

/-- Response schema, from `TodoResponse` (src/main.py lines 48-55). -/
structure TodoResponse where
  todo_id : Nat
  content : String
  completed : Bool
deriving DecidableEq

/-- An `HTTPException(status_code=..., detail=...)`. -/
structure HTTPError where
  status_code : Nat
  detail : String
deriving DecidableEq

/-- The lookup `db.query(TodoDB).filter(TodoDB.todo_id == todo_id).first()`:
the first row of the table whose `todo_id` matches. -/
def firstRow (db : Store) (todo_id : Nat) : Option TodoDB :=
  db.rows.find? (fun t => t.todo_id == todo_id)

/-- Handler `get_all_todos` (src/main.py lines 84-88): `db.query(TodoDB).all()`. -/
def get_all_todos (db : Store) : List TodoDB :=
  db.rows

/-- Handler `get_todo` (src/main.py lines 91-97): look the row up, 404 when absent. -/
def get_todo (todo_id : Nat) (db : Store) : Except HTTPError TodoDB :=
  match firstRow db todo_id with
  | none => Except.error ⟨404, "Todo not found"⟩
  | some todo => Except.ok todo

/-- Modelled from the spec: the insert-returning-id operation of the external
Store (spec section 6).  `db.add(new_todo); db.commit(); db.refresh(new_todo)`
delegates id assignment to the database, which is not code under src/; per the
spec (section 3) ids are assigned by the store on creation and are
monotonically non-reused within a single store lifetime, which we model with
the counter `nextId`. -/
def Store.insert (db : Store) (content : String) (completed : Option Bool) :
    TodoDB × Store :=
  let new_todo : TodoDB := ⟨db.nextId, content, completed⟩
  (new_todo, ⟨db.rows ++ [new_todo], db.nextId + 1⟩)

/-- Handler `create_todo` (src/main.py lines 100-107):
`TodoDB(content=todo.content, completed=False)` inserted and returned. -/
def create_todo (todo : TodoCreate) (db : Store) : TodoDB × Store :=
  Store.insert db todo.content (some false)

/-- In-place mutation of the row found by `.first()`: replace the first row
whose `todo_id` matches. -/
def replaceFirst : List TodoDB → Nat → TodoDB → List TodoDB
  | [], _, _ => []
  | r :: rs, todo_id, t =>
    if r.todo_id == todo_id then t :: rs else r :: replaceFirst rs todo_id t

/-- Handler `update_todo` (src/main.py lines 110-125): 404 when the row is absent;
otherwise each field is overwritten exactly when the request supplies it
(`if todo_update.content is not None: ...`), then committed. -/
def update_todo (todo_id : Nat) (todo_update : TodoUpdate) (db : Store) :
    Except HTTPError (TodoDB × Store) :=
  match firstRow db todo_id with
  | none => Except.error ⟨404, "Todo not found"⟩
  | some todo =>
    let todo1 := match todo_update.content with
      | some c => { todo with content := c }
      | none => todo
    let todo2 := match todo_update.completed with
      | some b => { todo1 with completed := some b }
      | none => todo1
    Except.ok (todo2, ⟨replaceFirst db.rows todo_id todo2, db.nextId⟩)

/-- Handler `delete_todo` (src/main.py lines 128-137): 404 when the row is absent;
otherwise `db.delete(todo)` removes that row. -/
def delete_todo (todo_id : Nat) (db : Store) : Except HTTPError Store :=
  match firstRow db todo_id with
  | none => Except.error ⟨404, "Todo not found"⟩
  | some _ => Except.ok ⟨db.rows.eraseP (fun r => r.todo_id == todo_id), db.nextId⟩

/-- The JSON values that appear on the wire for this API. -/
inductive JsonVal where
  | num (n : Int)
  | str (s : String)
  | bool (b : Bool)
  | null
  | obj (fields : List (String × JsonVal))

/-- Serialization of a `TodoResponse` to the wire object
`{"todo_id": integer, "content": string, "completed": boolean}`. -/
def encodeTodoResponse (r : TodoResponse) : JsonVal :=
  JsonVal.obj [("todo_id", JsonVal.num r.todo_id),
    ("content", JsonVal.str r.content),
    ("completed", JsonVal.bool r.completed)]

/-- Decoding of the wire object back into a `TodoResponse`: each field must be
present with the declared type. -/
def decodeTodoResponse (j : JsonVal) : Option TodoResponse :=
  match j with
  | JsonVal.obj fields =>
    match fields.lookup "todo_id", fields.lookup "content",
        fields.lookup "completed" with
    | some (JsonVal.num n), some (JsonVal.str s), some (JsonVal.bool b) =>
      if 0 ≤ n then some ⟨n.toNat, s, b⟩ else none
    | _, _, _ => none
  | _ => none

/-- Pydantic validation of a create request body against `TodoCreate`:
the body must carry a string field `content`; every other field is ignored
(the pydantic default config ignores extra fields). -/
def parseTodoCreate (j : JsonVal) : Option TodoCreate :=
  match j with
  | JsonVal.obj fields =>
    match fields.lookup "content" with
    | some (JsonVal.str s) => some ⟨s⟩
    | _ => none
  | _ => none

/-- Pydantic conversion `TodoResponse.model_validate(row)` enabled by
`from_attributes = True`: it succeeds only when `completed` is an actual
boolean, since `completed: bool` does not allow `None`. -/
def TodoResponse.fromAttributes (t : TodoDB) : Option TodoResponse :=
  match t.completed with
  | some b => some ⟨t.todo_id, t.content, b⟩
  | none => none

/-- One request against the service. -/
inductive Op where
  | create (todo : TodoCreate)
  | update (todo_id : Nat) (todo_update : TodoUpdate)
  | delete (todo_id : Nat)
  | get (todo_id : Nat)
  | listAll

/-- The store after handling one request (a failed request commits nothing). -/
def applyOp (db : Store) : Op → Store
  | Op.create c => (create_todo c db).2
  | Op.update i u =>
    match update_todo i u db with
    | Except.ok p => p.2
    | Except.error _ => db
  | Op.delete i =>
    match delete_todo i db with
    | Except.ok db1 => db1
    | Except.error _ => db
  | Op.get _ => db
  | Op.listAll => db

/-- The store after a sequence of requests. -/
def applyOps (db : Store) (ops : List Op) : Store :=
  ops.foldl applyOp db

/-- The store at the beginning of a lifetime: empty table, ids start at 1. -/
def initStore : Store :=
  ⟨[], 1⟩

/-- A store state arising in some single store lifetime. -/
def Store.Reachable (db : Store) : Prop :=
  ∃ ops, applyOps initStore ops = db

/-- The store invariant: every row id was dispensed earlier than `nextId`,
and row ids are pairwise distinct (integer primary key). -/
abbrev Store.WF (db : Store) : Prop :=
  (∀ r ∈ db.rows, r.todo_id < db.nextId) ∧
    (db.rows.map (fun r => r.todo_id)).Nodup

/-- Invariant that the `completed` column of every row holds an actual boolean. -/
abbrev Store.completedDefined (db : Store) : Prop :=
  ∀ r ∈ db.rows, r.completed.isSome = true

/-- DDL-relevant facts about one column declaration. -/
structure ColumnDef where
  nullable : Bool
  isPrimaryKey : Bool
  hasDdlDefault : Bool
deriving DecidableEq

/-- Column `todo_id = Column(Integer, primary_key=True, index=True)`
(src/main.py line 27): a primary key column is not nullable. -/
def todo_id_column : ColumnDef :=
  ⟨false, true, false⟩

/-- Column `content = Column(String, nullable=False)` (src/main.py line 28). -/
def content_column : ColumnDef :=
  ⟨false, false, false⟩

/-- Column `completed = Column(Boolean, default=False)` (src/main.py line 29):
no `nullable=False`, so SQLAlchemy declares the column nullable; `default=` is
a client-side insert default and emits no DDL `DEFAULT` clause (that would be
`server_default=`), so the emitted schema carries neither `NOT NULL` nor
`DEFAULT false` for this column. -/
def completed_column : ColumnDef :=
  ⟨true, false, false⟩

/-- Handling a batch of create requests in order, collecting the items
returned to the clients. -/
def createMany : List TodoCreate → Store → List TodoDB × Store
  | [], db => ([], db)
  | c :: cs, db =>
    let p := create_todo c db
    let q := createMany cs p.2
    (p.1 :: q.1, q.2)


/-! ### List-level lemmas -/

lemma find?_append_none (l1 l2 : List TodoDB) (p : TodoDB → Bool)
    (h : l1.find? p = none) : (l1 ++ l2).find? p = l2.find? p := by
  induction l1 with
  | nil => rfl
  | cons r rs ih =>
    rw [List.cons_append]
    cases hp : p r with
    | true =>
      simp only [List.find?_cons, hp] at h
      exact Option.noConfusion h
    | false =>
      simp only [List.find?_cons, hp] at h ⊢
      exact ih h

lemma replaceFirst_self (rows : List TodoDB) (i : Nat) (t : TodoDB)
    (h : rows.find? (fun r => r.todo_id == i) = some t) :
    replaceFirst rows i t = rows := by
  induction rows with
  | nil => simp at h
  | cons r rs ih =>
    cases hp : r.todo_id == i with
    | true =>
      simp only [List.find?_cons, hp, Option.some.injEq] at h
      subst h
      simp [replaceFirst, hp]
    | false =>
      simp only [List.find?_cons, hp] at h
      simp [replaceFirst, hp, ih h]

lemma replaceFirst_filter_ne (rows : List TodoDB) (i : Nat) (t : TodoDB)
    (ht : t.todo_id = i) :
    (replaceFirst rows i t).filter (fun r => r.todo_id != i) =
      rows.filter (fun r => r.todo_id != i) := by
  induction rows with
  | nil => rfl
  | cons r rs ih =>
    cases hp : r.todo_id == i with
    | true =>
      have hr : r.todo_id = i := eq_of_beq hp
      simp [replaceFirst, hp, List.filter, ht, hr]
    | false =>
      simp [replaceFirst, hp, List.filter, ih]

lemma mem_replaceFirst (rows : List TodoDB) (i : Nat) (t r : TodoDB)
    (h : r ∈ replaceFirst rows i t) : r = t ∨ r ∈ rows := by
  induction rows with
  | nil => simp [replaceFirst] at h
  | cons r0 rs ih =>
    by_cases hp : (r0.todo_id == i) = true
    · simp only [replaceFirst, hp, if_pos] at h
      rcases List.mem_cons.mp h with h1 | h1
      · exact Or.inl h1
      · exact Or.inr (List.mem_cons_of_mem _ h1)
    · simp only [replaceFirst, hp, Bool.false_eq_true, if_neg,
        not_false_eq_true] at h
      rcases List.mem_cons.mp h with h1 | h1
      · exact Or.inr (h1 ▸ List.mem_cons_self _ _)
      · rcases ih h1 with h2 | h2
        · exact Or.inl h2
        · exact Or.inr (List.mem_cons_of_mem _ h2)

lemma eraseP_find?_none (rows : List TodoDB) (i : Nat)
    (hnd : (rows.map (fun r => r.todo_id)).Nodup) :
    (rows.eraseP (fun r => r.todo_id == i)).find? (fun r => r.todo_id == i) =
      none := by
  induction rows with
  | nil => rfl
  | cons r rs ih =>
    rw [List.map_cons, List.nodup_cons] at hnd
    cases hp : r.todo_id == i with
    | true =>
      rw [List.eraseP_cons, hp, cond_true, List.find?_eq_none]
      intro x hx hxi
      have hri : r.todo_id = i := eq_of_beq hp
      have hxi2 : x.todo_id = r.todo_id := (eq_of_beq hxi).trans hri.symm
      exact hnd.1 (hxi2 ▸ List.mem_map_of_mem (fun r => r.todo_id) hx)
    | false =>
      rw [List.eraseP_cons, hp, cond_false]
      rw [List.find?_cons, hp]
      exact ih hnd.2

lemma eraseP_length (rows : List TodoDB) (i : Nat) (t : TodoDB)
    (h : rows.find? (fun r => r.todo_id == i) = some t) :
    (rows.eraseP (fun r => r.todo_id == i)).length + 1 = rows.length := by
  induction rows with
  | nil => simp at h
  | cons r rs ih =>
    cases hp : r.todo_id == i with
    | true =>
      rw [List.eraseP_cons, hp, cond_true]
      simp
    | false =>
      simp only [List.find?_cons, hp] at h
      rw [List.eraseP_cons, hp, cond_false]
      simp only [List.length_cons]
      rw [ih h]

lemma eraseP_filter_ne (rows : List TodoDB) (i : Nat) :
    (rows.eraseP (fun r => r.todo_id == i)).filter (fun r => r.todo_id != i) =
      rows.filter (fun r => r.todo_id != i) := by
  induction rows with
  | nil => rfl
  | cons r rs ih =>
    cases hp : r.todo_id == i with
    | true =>
      rw [List.eraseP_cons, hp, cond_true]
      rw [List.filter_cons]
      simp [bne, hp]
    | false =>
      rw [List.eraseP_cons, hp, cond_false]
      rw [List.filter_cons, List.filter_cons]
      have hf : (r.todo_id != i) = true := by simp [bne, hp]
      rw [if_pos hf, if_pos hf, ih]

/-! ### Service-level lemmas -/

lemma update_todo_ok (i : Nat) (u : TodoUpdate) (db : Store) (p : TodoDB × Store)
    (h : update_todo i u db = Except.ok p) :
    ∃ todo, firstRow db i = some todo ∧
      p.1.todo_id = todo.todo_id ∧
      p.1.content = u.content.getD todo.content ∧
      p.1.completed = (match u.completed with
        | some b => some b
        | none => todo.completed) ∧
      p.2 = ⟨replaceFirst db.rows i p.1, db.nextId⟩ := by
  unfold update_todo at h
  cases hf : firstRow db i with
  | none =>
    rw [hf] at h
    exact Except.noConfusion h
  | some todo =>
    rw [hf] at h
    injection h with h2
    refine ⟨todo, rfl, ?_, ?_, ?_, ?_⟩ <;>
      cases hc : u.content <;> cases hb : u.completed <;>
        simp [← h2, hc, hb]

lemma delete_todo_ok (i : Nat) (db db1 : Store)
    (h : delete_todo i db = Except.ok db1) :
    ∃ todo, firstRow db i = some todo ∧
      db1 = ⟨db.rows.eraseP (fun r => r.todo_id == i), db.nextId⟩ := by
  unfold delete_todo at h
  cases hf : firstRow db i with
  | none =>
    rw [hf] at h
    exact Except.noConfusion h
  | some todo =>
    rw [hf] at h
    injection h with h2
    exact ⟨todo, rfl, h2.symm⟩

lemma applyOp_nextId_le (db : Store) (op : Op) :
    db.nextId ≤ (applyOp db op).nextId := by
  cases op with
  | create c => exact Nat.le_succ _
  | update i u =>
    simp only [applyOp]
    cases h : update_todo i u db with
    | error e => exact Nat.le_refl _
    | ok p =>
      obtain ⟨todo, _, _, _, _, hstore⟩ := update_todo_ok i u db p h
      show db.nextId ≤ p.2.nextId
      rw [hstore]
  | delete i =>
    simp only [applyOp]
    cases h : delete_todo i db with
    | error e => exact Nat.le_refl _
    | ok db1 =>
      obtain ⟨todo, _, hstore⟩ := delete_todo_ok i db db1 h
      show db.nextId ≤ db1.nextId
      rw [hstore]
  | get i => exact Nat.le_refl _
  | listAll => exact Nat.le_refl _

lemma applyOps_nextId_le (ops : List Op) (db : Store) :
    db.nextId ≤ (applyOps db ops).nextId := by
  induction ops generalizing db with
  | nil => exact Nat.le_refl _
  | cons op ops ih =>
    exact Nat.le_trans (applyOp_nextId_le db op) (ih (applyOp db op))

lemma replaceFirst_map_id (rows : List TodoDB) (i : Nat) (t t0 : TodoDB)
    (hf : rows.find? (fun r => r.todo_id == i) = some t0)
    (ht : t.todo_id = t0.todo_id) :
    (replaceFirst rows i t).map (fun r => r.todo_id) =
      rows.map (fun r => r.todo_id) := by
  induction rows with
  | nil => simp at hf
  | cons r rs ih =>
    cases hp : r.todo_id == i with
    | true =>
      simp only [List.find?_cons, hp, Option.some.injEq] at hf
      subst hf
      simp [replaceFirst, hp, ht]
    | false =>
      simp only [List.find?_cons, hp] at hf
      simp [replaceFirst, hp, ih hf]

lemma applyOp_WF (db : Store) (op : Op) (h : db.WF) : (applyOp db op).WF := by
  obtain ⟨hlt, hnd⟩ := h
  cases op with
  | create c =>
    refine ⟨?_, ?_⟩
    · intro r hr
      rcases List.mem_append.mp hr with h1 | h1
      · exact Nat.lt_succ_of_lt (hlt r h1)
      · rcases List.mem_singleton.mp h1 with rfl
        exact Nat.lt_succ_self _
    · show ((db.rows ++ [TodoDB.mk db.nextId c.content (some false)]).map
        (fun r : TodoDB => r.todo_id)).Nodup
      rw [List.map_append]
      rw [List.nodup_append]
      refine ⟨hnd, List.nodup_singleton _, ?_⟩
      intro x hx hx2
      rcases List.mem_map.mp hx with ⟨r, hr, rfl⟩
      rcases List.mem_singleton.mp hx2 with h2
      exact absurd h2 (Nat.ne_of_lt (hlt r hr))
  | update i u =>
    simp only [applyOp]
    cases hu : update_todo i u db with
    | error e => exact ⟨hlt, hnd⟩
    | ok p =>
      obtain ⟨todo, hf, hid, _, _, hstore⟩ := update_todo_ok i u db p hu
      show Store.WF p.2
      rw [hstore]
      have htodo : todo ∈ db.rows := List.mem_of_find?_eq_some hf
      have hmap := replaceFirst_map_id db.rows i p.1 todo hf hid
      refine ⟨?_, ?_⟩
      · intro r hr
        rcases mem_replaceFirst db.rows i p.1 r hr with rfl | h1
        · exact hid ▸ hlt todo htodo
        · exact hlt r h1
      · show ((replaceFirst db.rows i p.1).map (fun r => r.todo_id)).Nodup
        rw [hmap]
        exact hnd
  | delete i =>
    simp only [applyOp]
    cases hd : delete_todo i db with
    | error e => exact ⟨hlt, hnd⟩
    | ok db1 =>
      obtain ⟨todo, hf, hstore⟩ := delete_todo_ok i db db1 hd
      show Store.WF db1
      rw [hstore]
      refine ⟨?_, ?_⟩
      · intro r hr
        exact hlt r ((List.eraseP_sublist db.rows).subset hr)
      · exact hnd.sublist ((List.eraseP_sublist db.rows).map (fun r => r.todo_id))
  | get i => exact ⟨hlt, hnd⟩
  | listAll => exact ⟨hlt, hnd⟩

lemma applyOp_completedDefined (db : Store) (op : Op)
    (h : db.completedDefined) : (applyOp db op).completedDefined := by
  cases op with
  | create c =>
    intro r hr
    rcases List.mem_append.mp hr with h1 | h1
    · exact h r h1
    · rcases List.mem_singleton.mp h1 with rfl
      rfl
  | update i u =>
    simp only [applyOp]
    cases hu : update_todo i u db with
    | error e => exact h
    | ok p =>
      obtain ⟨todo, hf, _, _, hcomp, hstore⟩ := update_todo_ok i u db p hu
      show Store.completedDefined p.2
      rw [hstore]
      intro r hr
      rcases mem_replaceFirst db.rows i p.1 r hr with rfl | h1
      · rw [hcomp]
        cases hb : u.completed with
        | some b => rfl
        | none => exact h todo (List.mem_of_find?_eq_some hf)
      · exact h r h1
  | delete i =>
    simp only [applyOp]
    cases hd : delete_todo i db with
    | error e => exact h
    | ok db1 =>
      obtain ⟨todo, hf, hstore⟩ := delete_todo_ok i db db1 hd
      show Store.completedDefined db1
      rw [hstore]
      intro r hr
      exact h r ((List.eraseP_sublist db.rows).subset hr)
  | get i => exact h
  | listAll => exact h

lemma applyOps_WF (ops : List Op) (db : Store) (h : db.WF) :
    (applyOps db ops).WF := by
  induction ops generalizing db with
  | nil => exact h
  | cons op ops ih => exact ih (applyOp db op) (applyOp_WF db op h)

lemma applyOps_completedDefined (ops : List Op) (db : Store)
    (h : db.completedDefined) : (applyOps db ops).completedDefined := by
  induction ops generalizing db with
  | nil => exact h
  | cons op ops ih => exact ih (applyOp db op) (applyOp_completedDefined db op h)

lemma reachable_WF (db : Store) (h : db.Reachable) : db.WF := by
  obtain ⟨ops, rfl⟩ := h
  exact applyOps_WF ops initStore ⟨by simp [initStore], by simp [initStore]⟩

lemma reachable_completedDefined (db : Store) (h : db.Reachable) :
    db.completedDefined := by
  obtain ⟨ops, rfl⟩ := h
  exact applyOps_completedDefined ops initStore (by intro r hr; simp [initStore] at hr)

lemma createMany_rows_length (cs : List TodoCreate) (db : Store) :
    ((createMany cs db).2).rows.length = db.rows.length + cs.length := by
  induction cs generalizing db with
  | nil => simp [createMany]
  | cons c cs ih =>
    show ((createMany cs (create_todo c db).2).2).rows.length = _
    rw [ih]
    show (db.rows ++ [TodoDB.mk db.nextId c.content (some false)]).length +
      cs.length = _
    simp [List.length_append]
    omega

lemma createMany_mem (cs : List TodoCreate) (db : Store) (t : TodoDB)
    (h : t ∈ db.rows) : t ∈ ((createMany cs db).2).rows := by
  induction cs generalizing db with
  | nil => exact h
  | cons c cs ih =>
    show t ∈ ((createMany cs (create_todo c db).2).2).rows
    exact ih _ (List.mem_append_left _ h)

lemma createMany_created_mem (cs : List TodoCreate) (db : Store) (t : TodoDB)
    (h : t ∈ (createMany cs db).1) : t ∈ ((createMany cs db).2).rows := by
  induction cs generalizing db with
  | nil => simp [createMany] at h
  | cons c cs ih =>
    have h2 : t ∈ (create_todo c db).1 ::
        (createMany cs (create_todo c db).2).1 := h
    rcases List.mem_cons.mp h2 with rfl | h1
    · exact createMany_mem cs (create_todo c db).2 _
        (List.mem_append_right _ (List.mem_singleton.mpr rfl))
    · exact ih _ h1

/-! ### Claims -/

/-- C1: within a single store lifetime, an id once assigned by Create is never
assigned again to a later-created item, whatever operations (including Delete
of that id) happen in between. -/
theorem create_never_reuses_id (db : Store) (c c1 : TodoCreate) (ops : List Op) :
    ((create_todo c1 (applyOps (create_todo c db).2 ops)).1).todo_id ≠
      ((create_todo c db).1).todo_id := by
  have h2 : ((create_todo c db).2).nextId = db.nextId + 1 := rfl
  have h3 := applyOps_nextId_le ops (create_todo c db).2
  rw [h2] at h3
  show (applyOps (create_todo c db).2 ops).nextId ≠ db.nextId
  omega

/-- C1 witness: after creating item 1 and deleting it, the next create does
not return id 1. -/
theorem create_never_reuses_id_witness :
    ((create_todo ⟨"b"⟩ (applyOps (create_todo ⟨"a"⟩ initStore).2
      [Op.delete 1])).1).todo_id ≠
      ((create_todo ⟨"a"⟩ initStore).1).todo_id :=
  create_never_reuses_id initStore ⟨"a"⟩ ⟨"b"⟩ [Op.delete 1]

/-- C2: for an id not present in the store, Get, Update and Delete each fail
with status 404 and message "Todo not found", and the store is unchanged. -/
theorem missing_id_operations_404 (db : Store) (i : Nat) (u : TodoUpdate)
    (h : firstRow db i = none) :
    get_todo i db = Except.error ⟨404, "Todo not found"⟩ ∧
    update_todo i u db = Except.error ⟨404, "Todo not found"⟩ ∧
    delete_todo i db = Except.error ⟨404, "Todo not found"⟩ ∧
    applyOp db (Op.get i) = db ∧
    applyOp db (Op.update i u) = db ∧
    applyOp db (Op.delete i) = db := by
  refine ⟨?_, ?_, ?_, rfl, ?_, ?_⟩
  · simp [get_todo, h]
  · simp [update_todo, h]
  · simp [delete_todo, h]
  · simp [applyOp, update_todo, h]
  · simp [applyOp, delete_todo, h]

/-- C2 witness: id 7 is absent from the empty store; all three operations
fail with 404 and leave the store unchanged. -/
theorem missing_id_operations_404_witness :
    firstRow initStore 7 = none ∧
    (get_todo 7 initStore = Except.error ⟨404, "Todo not found"⟩ ∧
     update_todo 7 ⟨none, none⟩ initStore =
       Except.error ⟨404, "Todo not found"⟩ ∧
     delete_todo 7 initStore = Except.error ⟨404, "Todo not found"⟩ ∧
     applyOp initStore (Op.get 7) = initStore ∧
     applyOp initStore (Op.update 7 ⟨none, none⟩) = initStore ∧
     applyOp initStore (Op.delete 7) = initStore) :=
  ⟨rfl, missing_id_operations_404 initStore 7 ⟨none, none⟩ rfl⟩

/-- C3: Create(content) followed by Get of the returned id yields the created
item, with the supplied content and completed = false. -/
theorem create_then_get (db : Store) (c : String) (h : db.WF) :
    get_todo ((create_todo ⟨c⟩ db).1).todo_id (create_todo ⟨c⟩ db).2 =
      Except.ok (create_todo ⟨c⟩ db).1 ∧
    ((create_todo ⟨c⟩ db).1).content = c ∧
    ((create_todo ⟨c⟩ db).1).completed = some false := by
  refine ⟨?_, rfl, rfl⟩
  have hnone : db.rows.find? (fun r => r.todo_id == db.nextId) = none := by
    rw [List.find?_eq_none]
    intro x hx hxp
    exact absurd (eq_of_beq hxp) (Nat.ne_of_lt (h.1 x hx))
  have hfr : firstRow (create_todo ⟨c⟩ db).2 db.nextId =
      some (create_todo ⟨c⟩ db).1 := by
    show (db.rows ++ [TodoDB.mk db.nextId c (some false)]).find?
        (fun r => r.todo_id == db.nextId) =
      some (TodoDB.mk db.nextId c (some false))
    rw [find?_append_none _ _ _ hnone]
    simp [List.find?_cons]
  show get_todo db.nextId (create_todo ⟨c⟩ db).2 =
    Except.ok (create_todo ⟨c⟩ db).1
  simp [get_todo, hfr]

/-- C3 witness: creating "a" in the empty store and reading id 1 back. -/
theorem create_then_get_witness :
    Store.WF initStore ∧
    (get_todo ((create_todo ⟨"a"⟩ initStore).1).todo_id
        (create_todo ⟨"a"⟩ initStore).2 =
      Except.ok (create_todo ⟨"a"⟩ initStore).1 ∧
    ((create_todo ⟨"a"⟩ initStore).1).content = "a" ∧
    ((create_todo ⟨"a"⟩ initStore).1).completed = some false) :=
  ⟨⟨by simp [initStore], by simp [initStore]⟩,
    create_then_get initStore "a" ⟨by simp [initStore], by simp [initStore]⟩⟩

/-- C4: Update with only content changes only content, Update with only
completed changes only completed, Update with neither field succeeds and
returns the item and store unmodified; rows with a different id are untouched. -/
theorem update_frame (db : Store) (i : Nat) (t : TodoDB) (c : String) (b : Bool)
    (h : firstRow db i = some t) :
    update_todo i ⟨some c, none⟩ db =
      Except.ok ({ t with content := c },
        ⟨replaceFirst db.rows i { t with content := c }, db.nextId⟩) ∧
    (replaceFirst db.rows i { t with content := c }).filter
        (fun r => r.todo_id != i) = db.rows.filter (fun r => r.todo_id != i) ∧
    update_todo i ⟨none, some b⟩ db =
      Except.ok ({ t with completed := some b },
        ⟨replaceFirst db.rows i { t with completed := some b }, db.nextId⟩) ∧
    (replaceFirst db.rows i { t with completed := some b }).filter
        (fun r => r.todo_id != i) = db.rows.filter (fun r => r.todo_id != i) ∧
    update_todo i ⟨none, none⟩ db = Except.ok (t, db) := by
  have hti : t.todo_id = i := by
    have h0 : List.find? (fun r : TodoDB => r.todo_id == i) db.rows = some t := h
    have h2 := List.find?_some h0
    exact eq_of_beq h2
  refine ⟨?_, ?_, ?_, ?_, ?_⟩
  · simp [update_todo, h]
  · exact replaceFirst_filter_ne _ _ _ hti
  · simp [update_todo, h]
  · exact replaceFirst_filter_ne _ _ _ hti
  · have hrs := replaceFirst_self db.rows i t h
    simp [update_todo, h, hrs]

/-- C4 witness: in a two-row store, the no-op update of id 1 returns the row
and the store unchanged. -/
theorem update_frame_witness :
    firstRow (Store.mk [TodoDB.mk 1 "m" (some false),
        TodoDB.mk 2 "n" (some true)] 3) 1 = some (TodoDB.mk 1 "m" (some false)) ∧
    update_todo 1 ⟨none, none⟩
        (Store.mk [TodoDB.mk 1 "m" (some false), TodoDB.mk 2 "n" (some true)] 3) =
      Except.ok (TodoDB.mk 1 "m" (some false),
        Store.mk [TodoDB.mk 1 "m" (some false), TodoDB.mk 2 "n" (some true)] 3) ∧
    update_todo 1 ⟨some "x", none⟩
        (Store.mk [TodoDB.mk 1 "m" (some false), TodoDB.mk 2 "n" (some true)] 3) =
      Except.ok (TodoDB.mk 1 "x" (some false),
        Store.mk [TodoDB.mk 1 "x" (some false), TodoDB.mk 2 "n" (some true)] 3) :=
  ⟨rfl,
    (update_frame (Store.mk [TodoDB.mk 1 "m" (some false),
      TodoDB.mk 2 "n" (some true)] 3) 1 (TodoDB.mk 1 "m" (some false))
      "x" true rfl).2.2.2.2,
    (update_frame (Store.mk [TodoDB.mk 1 "m" (some false),
      TodoDB.mk 2 "n" (some true)] 3) 1 (TodoDB.mk 1 "m" (some false))
      "x" true rfl).1⟩

/-- C5 counterexample: the schema does not guarantee a non-null `completed`
with a default of false — the source declares
`completed = Column(Boolean, default=False)` with no `nullable=False` and no
server-side default, so the column is nullable and its DDL carries no
`DEFAULT false` clause. -/
theorem completed_column_nullable :
    completed_column.nullable = true ∧ completed_column.hasDdlDefault = false :=
  ⟨rfl, rfl⟩

/-- C5 (amended): every TodoItem reachable via a successful read has both
fields defined — `content` because the schema declares it non-null, and
`completed` because every operation supplies it (Create stores false, Update
only overwrites it with a supplied boolean), not because of a schema
constraint. -/
theorem reachable_reads_fully_defined (db : Store) (h : db.Reachable) :
    content_column.nullable = false ∧
    ∀ r ∈ db.rows, (TodoResponse.fromAttributes r).isSome = true := by
  refine ⟨rfl, ?_⟩
  intro r hr
  have h2 := reachable_completedDefined db h r hr
  cases hc : r.completed with
  | none =>
    rw [hc] at h2
    simp at h2
  | some b => simp [TodoResponse.fromAttributes, hc]

/-- C5 witness: the store reached by one create; its single row serializes. -/
theorem reachable_reads_fully_defined_witness :
    Store.Reachable (Store.mk [TodoDB.mk 1 "a" (some false)] 2) ∧
    (content_column.nullable = false ∧
     ∀ r ∈ (Store.mk [TodoDB.mk 1 "a" (some false)] 2).rows,
       (TodoResponse.fromAttributes r).isSome = true) :=
  ⟨⟨[Op.create ⟨"a"⟩], rfl⟩,
    reachable_reads_fully_defined _ ⟨[Op.create ⟨"a"⟩], rfl⟩⟩

/-- C6: a create body with a string `content` field validates (in particular
the empty string), a body without `content` is rejected, and Create with the
empty string persists an item whose content is the empty string. -/
theorem create_accepts_empty_content (fields : List (String × JsonVal))
    (s : String) (rest : List (String × JsonVal)) (db : Store)
    (hmissing : fields.lookup "content" = none) :
    parseTodoCreate (JsonVal.obj (("content", JsonVal.str s) :: rest)) =
      some ⟨s⟩ ∧
    parseTodoCreate (JsonVal.obj fields) = none ∧
    ((create_todo ⟨""⟩ db).1).content = "" ∧
    ((create_todo ⟨""⟩ db).1).completed = some false ∧
    (create_todo ⟨""⟩ db).1 ∈ ((create_todo ⟨""⟩ db).2).rows := by
  refine ⟨?_, ?_, rfl, rfl, ?_⟩
  · simp [parseTodoCreate, List.lookup]
  · simp [parseTodoCreate, hmissing]
  · show (create_todo ⟨""⟩ db).1 ∈ db.rows ++ [(create_todo ⟨""⟩ db).1]
    exact List.mem_append_right _ (List.mem_singleton.mpr rfl)

/-- C6 witness: the empty body is rejected, `{"content": ""}` is accepted and
the empty-content item is persisted in the empty store. -/
theorem create_accepts_empty_content_witness :
    List.lookup "content" ([] : List (String × JsonVal)) = none ∧
    (parseTodoCreate (JsonVal.obj [("content", JsonVal.str "")]) = some ⟨""⟩ ∧
     parseTodoCreate (JsonVal.obj []) = none ∧
     ((create_todo ⟨""⟩ initStore).1).content = "" ∧
     ((create_todo ⟨""⟩ initStore).1).completed = some false ∧
     (create_todo ⟨""⟩ initStore).1 ∈ ((create_todo ⟨""⟩ initStore).2).rows) :=
  ⟨rfl, create_accepts_empty_content [] "" [] initStore rfl⟩

/-- C7: after a successful Delete(id), Get(id) fails with 404, a second
Delete(id) fails with 404, and the delete removed exactly the one row with
that id, leaving all rows with other ids in place. -/
theorem delete_then_get_404 (db db1 : Store) (i : Nat) (hwf : db.WF)
    (hdel : delete_todo i db = Except.ok db1) :
    get_todo i db1 = Except.error ⟨404, "Todo not found"⟩ ∧
    delete_todo i db1 = Except.error ⟨404, "Todo not found"⟩ ∧
    db1.rows.length + 1 = db.rows.length ∧
    db1.rows.filter (fun r => r.todo_id != i) =
      db.rows.filter (fun r => r.todo_id != i) := by
  obtain ⟨todo, hf, hstore⟩ := delete_todo_ok i db db1 hdel
  have hnone : firstRow db1 i = none := by
    rw [hstore]
    exact eraseP_find?_none db.rows i hwf.2
  refine ⟨?_, ?_, ?_, ?_⟩
  · simp [get_todo, hnone]
  · simp [delete_todo, hnone]
  · rw [hstore]
    exact eraseP_length db.rows i todo hf
  · rw [hstore]
    exact eraseP_filter_ne db.rows i

/-- C7 witness: deleting the only row of a one-row store. -/
theorem delete_then_get_404_witness :
    Store.WF (Store.mk [TodoDB.mk 1 "m" (some false)] 2) ∧
    delete_todo 1 (Store.mk [TodoDB.mk 1 "m" (some false)] 2) =
      Except.ok (Store.mk [] 2) ∧
    (get_todo 1 (Store.mk [] 2) = Except.error ⟨404, "Todo not found"⟩ ∧
     delete_todo 1 (Store.mk [] 2) = Except.error ⟨404, "Todo not found"⟩ ∧
     (Store.mk ([] : List TodoDB) 2).rows.length + 1 =
       (Store.mk [TodoDB.mk 1 "m" (some false)] 2).rows.length ∧
     (Store.mk ([] : List TodoDB) 2).rows.filter (fun r => r.todo_id != 1) =
       (Store.mk [TodoDB.mk 1 "m" (some false)] 2).rows.filter
         (fun r => r.todo_id != 1)) :=
  ⟨by constructor <;> simp, rfl,
    delete_then_get_404 (Store.mk [TodoDB.mk 1 "m" (some false)] 2)
      (Store.mk [] 2) 1 (by constructor <;> simp) rfl⟩

/-- C8: List on the empty store is empty; after N creates and no deletes,
List returns exactly N items and contains every created item. -/
theorem list_after_creates (cs : List TodoCreate) :
    get_all_todos initStore = [] ∧
    (get_all_todos ((createMany cs initStore).2)).length = cs.length ∧
    ∀ t ∈ (createMany cs initStore).1,
      t ∈ get_all_todos ((createMany cs initStore).2) := by
  refine ⟨rfl, ?_, ?_⟩
  · have hlen := createMany_rows_length cs initStore
    simpa [get_all_todos, initStore] using hlen
  · intro t ht
    exact createMany_created_mem cs initStore t ht

/-- C8 witness: two creates give a two-item listing containing both. -/
theorem list_after_creates_witness :
    (get_all_todos ((createMany [TodoCreate.mk "a", TodoCreate.mk "b"]
      initStore).2)).length = 2 ∧
    ∀ t ∈ (createMany [TodoCreate.mk "a", TodoCreate.mk "b"] initStore).1,
      t ∈ get_all_todos ((createMany [TodoCreate.mk "a", TodoCreate.mk "b"]
        initStore).2) :=
  ⟨(list_after_creates [TodoCreate.mk "a", TodoCreate.mk "b"]).2.1,
    (list_after_creates [TodoCreate.mk "a", TodoCreate.mk "b"]).2.2⟩

/-- C9: serializing a TodoItem to the wire JSON shape and decoding it
reproduces the same (id, content, completed) triple. -/
theorem wire_roundtrip (r : TodoResponse) :
    decodeTodoResponse (encodeTodoResponse r) = some r := by
  cases r with
  | mk i s b =>
    simp [encodeTodoResponse, decodeTodoResponse, List.lookup]

/-- C9 witness: a concrete round trip. -/
theorem wire_roundtrip_witness :
    decodeTodoResponse (encodeTodoResponse (TodoResponse.mk 1 "a" true)) =
      some (TodoResponse.mk 1 "a" true) :=
  wire_roundtrip (TodoResponse.mk 1 "a" true)

/-- C10: the create schema has only `content`; a `completed` field in the
request body is ignored by validation, and every item built from a validated
create request has completed = false. -/
theorem create_ignores_completed_field (fields : List (String × JsonVal))
    (s : String) (b : Bool) (rest : List (String × JsonVal)) (tc : TodoCreate)
    (db : Store) (h : parseTodoCreate (JsonVal.obj fields) = some tc) :
    parseTodoCreate (JsonVal.obj
      (("content", JsonVal.str s) :: ("completed", JsonVal.bool b) :: rest)) =
      some ⟨s⟩ ∧
    ((create_todo tc db).1).completed = some false := by
  refine ⟨?_, rfl⟩
  simp [parseTodoCreate, List.lookup]

/-- C10 witness: a body supplying completed = true still yields an item with
completed = false. -/
theorem create_ignores_completed_field_witness :
    parseTodoCreate (JsonVal.obj [("content", JsonVal.str "x"),
      ("completed", JsonVal.bool true)]) = some ⟨"x"⟩ ∧
    (parseTodoCreate (JsonVal.obj [("content", JsonVal.str "x"),
        ("completed", JsonVal.bool true)]) = some ⟨"x"⟩ ∧
      ((create_todo ⟨"x"⟩ initStore).1).completed = some false) :=
  ⟨rfl, create_ignores_completed_field
    [("content", JsonVal.str "x"), ("completed", JsonVal.bool true)]
    "x" true [] ⟨"x"⟩ initStore rfl⟩
